import Mathlib

/-!
Verification development for the `go-gpt-cli` streaming coordination
subsystem.  The definitions below are a shallow embedding of the Go code in
`src/internal/client/websocket.go` (state machine and `StartStreaming`) and
`src/cli/cli.go` (`handleUserInput`, `handleDisplay`, `runConcurrentChat`).
Mutex-guarded state updates become pure step functions on the state; the
buffered Go channel becomes a list with an explicit capacity; the straight
line teardown of the orchestrator becomes a small-step relation interleaved
with goroutine-exit events.
-/

namespace GoGptCli

/-- ConversationState, from websocket.go lines 14-21:
`StateIdle | StateResponding | StateCancelling | StateResponded`. -/
inductive ConversationState where
  | Idle
  | Responding
  | Cancelling
  | Responded
deriving DecidableEq, Repr

open ConversationState

/-- TryStartResponse, websocket.go lines 81-89: under the mutex, if the state
is `Idle` set it to `Responding` and return true, otherwise leave it and
return false.  The pair is (new state, returned Bool). -/
def TryStartResponse : ConversationState → ConversationState × Bool
  | Idle => (Responding, true)
  | s => (s, false)

/-- TryCancel, websocket.go lines 93-101: under the mutex, if the state is
`Responding` set it to `Cancelling` and return true, otherwise leave it and
return false. -/
def TryCancel : ConversationState → ConversationState × Bool
  | Responding => (Cancelling, true)
  | s => (s, false)

/-- Reset, websocket.go lines 104-106: unconditionally set the state to
`Idle`. -/
def Reset (_ : ConversationState) : ConversationState := Idle

/-- A non-blocking send on the buffered `chunks` channel: the
`select { case chunks <- delta: ... default: }` idiom used at
websocket.go lines 201-210 and 178-185.  If the buffer has room the value is
appended, otherwise it is dropped.  `cap` is the channel capacity
(50 for `aiChunks` in `runConcurrentChat`). -/
def trySend (cap : Nat) (buf : List String) (s : String) : List String :=
  if buf.length < cap then buf ++ [s] else buf

/-- Inbound protocol messages as `StartStreaming` distinguishes them
(websocket.go lines 191-252).  For `response.done` the nested
`response.status` string is extracted beforehand, with `"unknown"` standing
in when the field is absent (lines 215-221). -/
inductive InMessage where
  | responseCreated
  | textDelta (delta : String)
  | responseDone (status : String)
  | responseCancelled
  | errorMsg
  | other (t : String)
deriving DecidableEq, Repr

/-- Result of one iteration of the `StartStreaming` loop: the conversation
state after the iteration, the channel buffer after the iteration, and
whether the function returns (stops) at this point. -/
structure StreamResult where
  state : ConversationState
  buf : List String
  stop : Bool
deriving DecidableEq, Repr

/-- One iteration of the `StartStreaming` message switch, websocket.go lines
191-252, for a successfully read message (the `ctx.Done` and read-failure
paths are modelled separately).
  - `response.created`: log only, no state change (lines 193-195).
  - `response.text.delta`: only when the state is `Responding`, the delta is
    offered to the channel with a non-blocking send (lines 197-212).
  - `response.done`: `completed` sets `Responded`, `cancelled` sets `Idle`,
    any other status sets `Responded`; nothing is sent on the channel
    (lines 214-241).
  - `response.cancelled`: sets `Responded` (lines 243-246).
  - `error`: logs and calls `Reset` (state `Idle`); the loop continues
    (lines 248-251).
Transport writes and log prints are not tracked. -/
def StartStreamingStep (cap : Nat) (st : ConversationState) (buf : List String) :
    InMessage → StreamResult
  | InMessage.responseCreated => ⟨st, buf, false⟩
  | InMessage.textDelta d =>
      if st = Responding then ⟨st, trySend cap buf d, false⟩
      else ⟨st, buf, false⟩
  | InMessage.responseDone status =>
      if status = "completed" then ⟨Responded, buf, false⟩
      else if status = "cancelled" then ⟨Idle, buf, false⟩
      else ⟨Responded, buf, false⟩
  | InMessage.responseCancelled => ⟨Responded, buf, false⟩
  | InMessage.errorMsg => ⟨Reset st, buf, false⟩
  | InMessage.other _ => ⟨st, buf, false⟩

/-- The `ReadJSON` failure path of `StartStreaming`, websocket.go lines
176-188: a best-effort (non-blocking) send of the connection-error text,
then `Reset` and return. -/
def StartStreamingReadFailure (cap : Nat) (st : ConversationState)
    (buf : List String) (errText : String) : StreamResult :=
  ⟨Reset st, trySend cap buf errText, true⟩

/-- Outbound wire messages the client writes, websocket.go lines 261-323:
`conversation.item.create` and `response.create` from `SendMessageAsync`,
`response.cancel` from `CancelResponse`. -/
inductive WireMsg where
  | conversationItemCreate (text : String)
  | responseCreate
  | responseCancel
deriving DecidableEq, Repr

/-- SendMessageAsync, websocket.go lines 261-298: `TryStartResponse` first;
on failure return an error (no wire traffic); on success write the
`conversation.item.create` and `response.create` messages.  Transport writes
are modelled as succeeding.  Returns (new state, wire messages written,
ok). -/
def SendMessageAsync (st : ConversationState) (text : String) :
    ConversationState × List WireMsg × Bool :=
  match TryStartResponse st with
  | (st2, true) => (st2, [WireMsg.conversationItemCreate text, WireMsg.responseCreate], true)
  | (st2, false) => (st2, [], false)

/-- CancelResponse, websocket.go lines 305-323: `TryCancel` first; on failure
return an error (no wire traffic); on success write `response.cancel`. -/
def CancelResponse (st : ConversationState) :
    ConversationState × List WireMsg × Bool :=
  match TryCancel st with
  | (st2, true) => (st2, [WireMsg.responseCancel], true)
  | (st2, false) => (st2, [], false)

/-- Go `unicode.IsSpace` restricted to the Latin-1 range, the characters
`strings.TrimSpace` strips in practice here: `\t \n \v \f \r ' '` plus
U+0085 and U+00A0. -/
def isSpaceGo (c : Char) : Bool :=
  c == ' ' || c == '\t' || c == '\n' || c == Char.ofNat 11 || c == Char.ofNat 12 ||
  c == '\r' || c == Char.ofNat 133 || c == Char.ofNat 160

/-- Go `strings.TrimSpace`: drop whitespace from both ends. -/
def trimSpace (s : String) : String :=
  String.mk (((s.toList.dropWhile isSpaceGo).reverse.dropWhile isSpaceGo).reverse)

/-- handleUserInput body for one scanned line, cli.go lines 164-174: trim the
line; a blank line is skipped (`none`), otherwise the trimmed text is sent on
the `userInput` channel (`some`). -/
def processLine (raw : String) : Option String :=
  let input := trimSpace raw
  if input = "" then none else some input

/-- The exit-keyword test of handleDisplay, cli.go line 208:
`input == "exit" || input == "quit"`. -/
def exitCheck (input : String) : Bool :=
  input == "exit" || input == "quit"

/-- The error marker character `❌` (U+274C) that handleDisplay looks for
with `strings.Contains(chunk, "❌")`, cli.go line 237. -/
def errMark : Char := Char.ofNat 10060

/-- Go `strings.Contains(s, needle)` for the single-character needles used in
handleDisplay (`"❌"` and `"\n"`): membership of that character. -/
def containsChar (s : String) (c : Char) : Bool :=
  s.toList.contains c

/-- The display coordinator's mutable locals, cli.go lines 194-195:
`currentResponse strings.Builder` and `responseActive bool`. -/
structure DisplayState where
  currentResponse : String
  responseActive : Bool
deriving DecidableEq, Repr

/-- One event of the handleDisplay select, cli.go lines 198-262: a user
message or channel closure on `userInput`, or a chunk or channel closure on
`aiChunks`. -/
inductive DispEvent where
  | userMsg (input : String)
  | userClosed
  | chunk (c : String)
  | chunksClosed
deriving DecidableEq, Repr

/-- Result of one handleDisplay iteration: new locals, new conversation
state, wire messages written, chunk texts printed (`fmt.Print(chunk)` calls
only; status/log prints are not tracked), whether `done <- true` was sent,
and whether the loop returns. -/
structure DispResult where
  disp : DisplayState
  conv : ConversationState
  wire : List WireMsg
  out : List String
  signaled : Bool
  stop : Bool
deriving DecidableEq, Repr

/-- One iteration of handleDisplay, cli.go lines 197-263.
  - closed `userInput` or closed `aiChunks`: `done <- true`, return
    (lines 200-205, 227-232).
  - user message that is an exit keyword: `done <- true`, return
    (lines 208-212).
  - other user message: `SendMessageAsync`; on error, `continue` with locals
    untouched (lines 216-219); on success, reset `currentResponse`, set
    `responseActive` (lines 222-224).  No cancel is ever issued here.
  - chunk while `responseActive`: if it contains `❌`, print it, clear
    `responseActive`, `continue` (lines 237-241); otherwise print it, append
    to `currentResponse`, and if it contains a newline (and no `❌`) clear
    `responseActive` (lines 244-260).
  - chunk while not `responseActive`: ignored (line 235 guard). -/
def handleDisplayStep (d : DisplayState) (st : ConversationState) :
    DispEvent → DispResult
  | DispEvent.userClosed => ⟨d, st, [], [], true, true⟩
  | DispEvent.chunksClosed => ⟨d, st, [], [], true, true⟩
  | DispEvent.userMsg input =>
      if exitCheck input then ⟨d, st, [], [], true, true⟩
      else
        match SendMessageAsync st input with
        | (st2, w, true) => ⟨⟨"", true⟩, st2, w, [], false, false⟩
        | (st2, w, false) => ⟨d, st2, w, [], false, false⟩
  | DispEvent.chunk c =>
      if d.responseActive then
        if containsChar c errMark then
          ⟨⟨d.currentResponse, false⟩, st, [], [c], false, false⟩
        else
          let d2 : DisplayState := ⟨d.currentResponse ++ c, d.responseActive⟩
          if containsChar c '\n' && !(containsChar c errMark) then
            ⟨⟨d2.currentResponse, false⟩, st, [], [c], false, false⟩
          else ⟨d2, st, [], [c], false, false⟩
      else ⟨d, st, [], [], false, false⟩

/-- Run handleDisplay over a list of events, stopping when an iteration
returns; collects all printed chunk texts. -/
def runDisplay (d : DisplayState) (st : ConversationState) :
    List DispEvent → DisplayState × ConversationState × List String
  | [] => (d, st, [])
  | e :: es =>
      let r := handleDisplayStep d st e
      if r.stop then (r.disp, r.conv, r.out)
      else
        let rest := runDisplay r.disp r.conv es
        (rest.1, rest.2.1, r.out ++ rest.2.2)

/-- Offer a list of deltas to the channel in order with non-blocking sends,
as repeated `response.text.delta` iterations of `StartStreaming` do while
`Responding` (websocket.go lines 197-212). -/
def pushAll (cap : Nat) (buf : List String) : List String → List String
  | [] => buf
  | d :: ds => pushAll cap (trySend cap buf d) ds

/-- The orchestrator's view of the system, `runConcurrentChat` cli.go lines
292-320: how many of the three participant goroutines have finished
(`wg.Done` fired, lines 296-307), the main goroutine's program counter
through the straight-line teardown, and whether the two shared channels are
still open. -/
structure OrchState where
  exits : Nat
  pc : Nat
  userOpen : Bool
  chunksOpen : Bool
deriving DecidableEq, Repr

/-- Initial orchestrator state: channels just created (lines 282-283), no
goroutine finished, main about to block on `<-done` (line 310). -/
def orchInit : OrchState := ⟨0, 0, true, true⟩

/-- Interleaved small-step semantics of `runConcurrentChat`'s shutdown,
cli.go lines 296-320.  A `gExit` step is one participant goroutine
returning and firing its deferred `wg.Done` (at most three, lines 296-307).
The main goroutine executes, in program order: `<-done` (line 310),
`close(done)` (line 313), `wg.Wait()` (line 316) — which can fire only once
all three goroutines have exited — then `close(userInput)` (line 319) and
`close(aiChunks)` (line 320). -/
inductive OrchStep : OrchState → OrchState → Prop where
  | gExit (s : OrchState) : s.exits < 3 →
      OrchStep s ⟨s.exits + 1, s.pc, s.userOpen, s.chunksOpen⟩
  | recvDone (s : OrchState) : s.pc = 0 →
      OrchStep s ⟨s.exits, 1, s.userOpen, s.chunksOpen⟩
  | closeDone (s : OrchState) : s.pc = 1 →
      OrchStep s ⟨s.exits, 2, s.userOpen, s.chunksOpen⟩
  | wgWait (s : OrchState) : s.pc = 2 → s.exits = 3 →
      OrchStep s ⟨s.exits, 3, s.userOpen, s.chunksOpen⟩
  | closeUserInput (s : OrchState) : s.pc = 3 →
      OrchStep s ⟨s.exits, 4, false, s.chunksOpen⟩
  | closeAiChunks (s : OrchState) : s.pc = 4 →
      OrchStep s ⟨s.exits, 5, s.userOpen, false⟩

/-- States the orchestrator can reach from its initial state. -/
def OrchReachable (s : OrchState) : Prop :=
  Relation.ReflTransGen OrchStep orchInit s

/-! Helper lemmas shared by the claim theorems. -/

/-- Offering deltas with non-blocking sends only ever appends: the buffer
after `pushAll` is the original buffer followed by an order-preserving
selection of the offered deltas. -/
theorem pushAll_append_sublist (cap : Nat) :
    ∀ (ds buf : List String),
      ∃ e, pushAll cap buf ds = buf ++ e ∧ e.Sublist ds := by
  intro ds
  induction ds with
  | nil => exact fun buf => ⟨[], by simp [pushAll], List.Sublist.refl []⟩
  | cons d ds ih =>
      intro buf
      by_cases h : buf.length < cap
      · obtain ⟨e, he, hs⟩ := ih (buf ++ [d])
        refine ⟨d :: e, ?_, List.Sublist.cons₂ d hs⟩
        simp only [pushAll, trySend, if_pos h] at he ⊢
        simp [he]
      · obtain ⟨e, he, hs⟩ := ih buf
        refine ⟨e, ?_, List.Sublist.cons d hs⟩
        simp only [pushAll, trySend, if_neg h] at he ⊢
        exact he

/-- Every chunk text printed by one handleDisplay iteration is the payload of
the chunk event that iteration consumed. -/
theorem handleDisplay_out_from_chunk (d : DisplayState) (st : ConversationState)
    (e : DispEvent) (x : String) :
    x ∈ (handleDisplayStep d st e).out → e = DispEvent.chunk x := by
  intro hx
  cases e with
  | userClosed => simp [handleDisplayStep] at hx
  | chunksClosed => simp [handleDisplayStep] at hx
  | userMsg input =>
      rcases hs : SendMessageAsync st input with ⟨st2, w, ok⟩
      by_cases h : exitCheck input = true <;> cases ok <;>
        simp [handleDisplayStep, h, hs] at hx
  | chunk c =>
      by_cases ha : d.responseActive = true
      · by_cases hm : containsChar c errMark = true
        · simp [handleDisplayStep, ha, hm] at hx
          simp [hx]
        · by_cases hn : containsChar c '\n' = true
          · simp [handleDisplayStep, ha, hm, hn] at hx
            simp [hx]
          · simp [handleDisplayStep, ha, hm, hn] at hx
            simp [hx]
      · have ha' : d.responseActive = false := by
          cases hb : d.responseActive
          · rfl
          · exact absurd hb ha
        simp [handleDisplayStep, ha'] at hx

/-- Every chunk text printed over a whole handleDisplay run came in as a
chunk event on the `aiChunks` channel. -/
theorem runDisplay_out_mem (x : String) :
    ∀ (evs : List DispEvent) (d0 : DisplayState) (c0 : ConversationState),
      x ∈ (runDisplay d0 c0 evs).2.2 → DispEvent.chunk x ∈ evs := by
  intro evs
  induction evs with
  | nil => intro d0 c0 h; simp [runDisplay] at h
  | cons e es ih =>
      intro d0 c0 h
      simp only [runDisplay] at h
      by_cases hstop : (handleDisplayStep d0 c0 e).stop = true
      · rw [if_pos hstop] at h
        have he := handleDisplay_out_from_chunk d0 c0 e x h
        rw [he]
        exact List.mem_cons_self _ _
      · rw [if_neg hstop] at h
        rcases List.mem_append.mp h with h1 | h2
        · have he := handleDisplay_out_from_chunk d0 c0 e x h1
          rw [he]
          exact List.mem_cons_self _ _
        · exact List.mem_cons_of_mem _ (ih _ _ h2)

/-- A handleDisplay iteration on a user message signals `done` and returns
exactly when the message is an exit keyword. -/
theorem handleDisplay_userMsg_signals (d : DisplayState) (st : ConversationState)
    (m : String) :
    ((handleDisplayStep d st (DispEvent.userMsg m)).signaled = true ∧
     (handleDisplayStep d st (DispEvent.userMsg m)).stop = true) ↔
    exitCheck m = true := by
  by_cases h : exitCheck m = true
  · simp [handleDisplayStep, h]
  · rcases hs : SendMessageAsync st m with ⟨st2, w, ok⟩
    cases ok <;> simp [handleDisplayStep, h, hs]

/-- Inductive invariant of the orchestrator's shutdown: no more than three
goroutine exits ever occur; the main goroutine is past `wg.Wait()` only when
all three have exited; and each channel is closed only once the program
counter has passed its `close` statement. -/
theorem orchInvariant (s : OrchState) (h : OrchReachable s) :
    s.exits ≤ 3 ∧ (2 < s.pc → s.exits = 3) ∧
    (s.userOpen = false → 3 < s.pc) ∧ (s.chunksOpen = false → 4 < s.pc) := by
  induction h with
  | refl => refine ⟨?_, ?_, ?_, ?_⟩ <;> simp [orchInit]
  | tail _ hstep ih =>
      obtain ⟨h1, h2, h3, h4⟩ := ih
      cases hstep with
      | gExit hlt =>
          dsimp only
          refine ⟨by omega, ?_, h3, h4⟩
          intro hp
          have := h2 hp
          omega
      | recvDone hpc =>
          dsimp only
          refine ⟨h1, ?_, ?_, ?_⟩
          · intro hp; omega
          · intro hu; have := h3 hu; omega
          · intro hc; have := h4 hc; omega
      | closeDone hpc =>
          dsimp only
          refine ⟨h1, ?_, ?_, ?_⟩
          · intro hp; omega
          · intro hu; have := h3 hu; omega
          · intro hc; have := h4 hc; omega
      | wgWait hpc hex =>
          dsimp only
          refine ⟨h1, fun _ => hex, ?_, ?_⟩
          · intro hu; have := h3 hu; omega
          · intro hc; have := h4 hc; omega
      | closeUserInput hpc =>
          dsimp only
          refine ⟨h1, fun _ => h2 (by omega), fun _ => by omega, ?_⟩
          intro hc; have := h4 hc; omega
      | closeAiChunks hpc =>
          dsimp only
          refine ⟨h1, fun _ => h2 (by omega), ?_, fun _ => by omega⟩
          intro hu; have := h3 hu; omega

/-! Claim theorems. -/

/-- C5 (confirmed): a `TryStartResponse` call succeeds exactly when the
current state is `Idle`; on success the state becomes `Responding`, and on
failure the state is returned unchanged together with `false`, telling the
caller a response is already outstanding. -/
theorem c5_tryStartResponse_succeeds_iff_idle :
    ∀ s : ConversationState,
      TryStartResponse s =
        (if s = ConversationState.Idle then (ConversationState.Responding, true)
         else (s, false)) := by
  intro s
  cases s <;> rfl

/-- C2 counterexample: calling `TryStartResponse` while the state is
`Responded` does not succeed — it returns `false` and does not transition to
`Responding`; the state stays `Responded`. -/
theorem c2_responded_start_fails :
    TryStartResponse ConversationState.Responded =
      (ConversationState.Responded, false) := by
  rfl

/-- C2 (corrected): a `TryStartResponse` call made while the state is
`Responded` fails, leaving the state at `Responded`; the call succeeds only
from `Idle`, so `Responded` is not directly restartable. -/
theorem c2_only_idle_restartable :
    TryStartResponse ConversationState.Responded =
      (ConversationState.Responded, false) ∧
    ∀ s : ConversationState,
      (TryStartResponse s).2 = true ↔ s = ConversationState.Idle := by
  refine ⟨rfl, ?_⟩
  intro s
  cases s <;> simp [TryStartResponse]

/-- C1 counterexample: with the conversation state `Responding`, an ordinary
user message ("hello") produces no wire traffic at all — in particular no
`response.cancel` is dispatched and no send is issued; the send attempt fails
locally and the loop continues with the state still `Responding`. -/
theorem c1_responding_send_rejected :
    handleDisplayStep ⟨"", true⟩ ConversationState.Responding
        (DispEvent.userMsg "hello") =
      ⟨⟨"", true⟩, ConversationState.Responding, [], [], false, false⟩ := by
  decide

/-- C1 (corrected): on an ordinary (non-exit) user message received while the
state is `Responding`, the coordinator issues no cancel: the whole iteration
writes nothing to the transport (the send is rejected as a local error
because `TryStartResponse` only succeeds from `Idle`), the state is
unchanged, and the loop continues.  Moreover no handleDisplay iteration, in
any state and on any event, ever dispatches `response.cancel`. -/
theorem c1_no_cancel_before_send :
    ∀ (d : DisplayState) (input : String),
      exitCheck input = false →
      (handleDisplayStep d ConversationState.Responding
          (DispEvent.userMsg input) =
        ⟨d, ConversationState.Responding, [], [], false, false⟩) ∧
      ∀ (d2 : DisplayState) (st : ConversationState) (e : DispEvent),
        WireMsg.responseCancel ∉ (handleDisplayStep d2 st e).wire := by
  intro d input hne
  constructor
  · simp [handleDisplayStep, hne, SendMessageAsync, TryStartResponse]
  · intro d2 st e
    cases e with
    | userClosed => simp [handleDisplayStep]
    | chunksClosed => simp [handleDisplayStep]
    | userMsg m =>
        by_cases h : exitCheck m = true
        · simp [handleDisplayStep, h]
        · rcases hs : SendMessageAsync st m with ⟨st2, w, ok⟩
          have hw : w = [WireMsg.conversationItemCreate m, WireMsg.responseCreate] ∨
              w = [] := by
            rcases hst : TryStartResponse st with ⟨st3, b⟩
            cases b <;> simp [SendMessageAsync, hst] at hs <;> simp [hs]
          cases ok <;> rcases hw with hw | hw <;>
            simp [handleDisplayStep, h, hs, hw]
    | chunk c =>
        by_cases ha : d2.responseActive = true
        · by_cases hm : containsChar c errMark = true
          · simp [handleDisplayStep, ha, hm]
          · by_cases hn : containsChar c '\n' = true
            · simp [handleDisplayStep, ha, hm, hn]
            · simp [handleDisplayStep, ha, hm, hn]
        · have ha' : d2.responseActive = false := by
            cases hb : d2.responseActive
            · rfl
            · exact absurd hb ha
          simp [handleDisplayStep, ha']

/-- C1 witness: concrete instance of the corrected claim at state
`Responding` with the ordinary message "hello". -/
theorem c1_no_cancel_before_send_witness :
    exitCheck "hello" = false ∧
    handleDisplayStep ⟨"", true⟩ ConversationState.Responding
        (DispEvent.userMsg "hello") =
      ⟨⟨"", true⟩, ConversationState.Responding, [], [], false, false⟩ :=
  ⟨by decide, (c1_no_cancel_before_send ⟨"", true⟩ "hello" (by decide)).1⟩

/-- C3, code evaluated at the failing inputs: a `response.done` with status
`completed` sets the state to `Responded`, with status `cancelled` sets it to
`Idle`, and with any other status sets it to `Responded`; in all three cases
the outbound channel buffer is left exactly as it was — no terminal marker
fragment is pushed — and the streamer loop continues. -/
theorem c3_done_pushes_no_marker :
    StartStreamingStep 50 ConversationState.Responding []
        (InMessage.responseDone "completed") =
      ⟨ConversationState.Responded, [], false⟩ ∧
    StartStreamingStep 50 ConversationState.Responding []
        (InMessage.responseDone "cancelled") =
      ⟨ConversationState.Idle, [], false⟩ ∧
    StartStreamingStep 50 ConversationState.Responding []
        (InMessage.responseDone "failed") =
      ⟨ConversationState.Responded, [], false⟩ := by
  refine ⟨?_, ?_, ?_⟩ <;> decide

/-- C4 counterexample: processing a server `error` message while `Responding`
with an empty outbound buffer resets the state to `Idle` but pushes no
error-marker fragment (the buffer stays empty) and does not stop the
streamer (the loop continues). -/
theorem c4_error_no_push_no_stop :
    StartStreamingStep 50 ConversationState.Responding [] InMessage.errorMsg =
      ⟨ConversationState.Idle, [], false⟩ := by
  decide

/-- C4 (corrected): on a server `error` message the streamer resets the state
to `Idle` but pushes nothing onto the outbound channel and keeps looping; it
is the transport read-failure path that performs the best-effort push of an
error-marker fragment and stops. -/
theorem c4_error_resets_and_continues :
    ∀ (cap : Nat) (st : ConversationState) (buf : List String)
      (errText : String),
      StartStreamingStep cap st buf InMessage.errorMsg =
        ⟨ConversationState.Idle, buf, false⟩ ∧
      StartStreamingReadFailure cap st buf errText =
        ⟨ConversationState.Idle, trySend cap buf errText, true⟩ := by
  intro cap st buf errText
  exact ⟨rfl, rfl⟩

/-- C6 (confirmed): a text delta arriving while the state is not `Responding`
is dropped as a no-op — the streamer's step is total (no crash), leaves the
state and the outbound buffer untouched, and keeps looping; and since every
chunk text the DisplayCoordinator ever prints came in as a chunk event on
the channel, a dropped delta is never displayed. -/
theorem c6_stale_delta_dropped :
    ∀ (cap : Nat) (st : ConversationState) (buf : List String) (d : String),
      st ≠ ConversationState.Responding →
      StartStreamingStep cap st buf (InMessage.textDelta d) =
        ⟨st, buf, false⟩ ∧
      ∀ (d0 : DisplayState) (c0 : ConversationState) (evs : List DispEvent)
        (x : String),
        x ∈ (runDisplay d0 c0 evs).2.2 → DispEvent.chunk x ∈ evs := by
  intro cap st buf d hne
  refine ⟨?_, ?_⟩
  · simp [StartStreamingStep, hne]
  · intro d0 c0 evs x hx
    exact runDisplay_out_mem x evs d0 c0 hx

/-- C6 witness: concrete instance with state `Idle` — the delta is dropped
and the buffer is unchanged. -/
theorem c6_stale_delta_dropped_witness :
    ConversationState.Idle ≠ ConversationState.Responding ∧
    StartStreamingStep 50 ConversationState.Idle ["x"]
        (InMessage.textDelta "d") =
      ⟨ConversationState.Idle, ["x"], false⟩ :=
  ⟨by decide, (c6_stale_delta_dropped 50 ConversationState.Idle ["x"] "d"
    (by decide)).1⟩

/-- C7 (confirmed): in every reachable shutdown state of the orchestrator,
if either the `userInput` or the `aiChunks` channel has been closed then all
three participant goroutines have already exited — `wg.Wait()` strictly
precedes both `close` calls. -/
theorem c7_close_only_after_all_stopped :
    ∀ s : OrchState, OrchReachable s →
      (s.userOpen = false ∨ s.chunksOpen = false) → s.exits = 3 := by
  intro s h hc
  obtain ⟨h1, h2, h3, h4⟩ := orchInvariant s h
  rcases hc with hu | hk
  · exact h2 (by have := h3 hu; omega)
  · exact h2 (by have := h4 hk; omega)

/-- C7 witness: the full shutdown trace — three goroutine exits, `<-done`,
`close(done)`, `wg.Wait()`, `close(userInput)`, `close(aiChunks)` — reaches
the final state, where the claim gives `exits = 3`. -/
theorem c7_close_only_after_all_stopped_witness :
    (⟨3, 5, false, false⟩ : OrchState).exits = 3 := by
  have r : OrchReachable ⟨3, 5, false, false⟩ := by
    refine Relation.ReflTransGen.head (OrchStep.gExit orchInit (by decide)) ?_
    refine Relation.ReflTransGen.head (OrchStep.gExit _ (by decide)) ?_
    refine Relation.ReflTransGen.head (OrchStep.gExit _ (by decide)) ?_
    refine Relation.ReflTransGen.head (OrchStep.recvDone _ rfl) ?_
    refine Relation.ReflTransGen.head (OrchStep.closeDone _ rfl) ?_
    refine Relation.ReflTransGen.head (OrchStep.wgWait _ rfl rfl) ?_
    refine Relation.ReflTransGen.head (OrchStep.closeUserInput _ rfl) ?_
    exact Relation.ReflTransGen.head (OrchStep.closeAiChunks _ rfl)
      Relation.ReflTransGen.refl
  exact c7_close_only_after_all_stopped _ r (Or.inl rfl)

/-- C8 (confirmed): a scanned input line leads the DisplayCoordinator to
signal `done` and stop exactly when the line trims to `exit` or `quit`
(case-sensitive, exact match); no other line does so through the user-message
path. -/
theorem c8_exit_keywords :
    ∀ (raw : String) (d : DisplayState) (st : ConversationState),
      (∃ m, processLine raw = some m ∧
          (handleDisplayStep d st (DispEvent.userMsg m)).signaled = true ∧
          (handleDisplayStep d st (DispEvent.userMsg m)).stop = true) ↔
      (trimSpace raw = "exit" ∨ trimSpace raw = "quit") := by
  intro raw d st
  constructor
  · rintro ⟨m, hm, hsig, hstop⟩
    have hmm : m = trimSpace raw := by
      by_cases h : trimSpace raw = ""
      · simp [processLine, h] at hm
      · simp [processLine, h] at hm
        exact hm.symm
    have hex : exitCheck m = true :=
      (handleDisplay_userMsg_signals d st m).mp ⟨hsig, hstop⟩
    rw [hmm] at hex
    simpa [exitCheck] using hex
  · intro h
    have hne : trimSpace raw ≠ "" := by
      rcases h with h | h <;> rw [h] <;> decide
    have hex : exitCheck (trimSpace raw) = true := by
      rcases h with h | h <;> simp [exitCheck, h]
    have hsig := (handleDisplay_userMsg_signals d st (trimSpace raw)).mpr hex
    exact ⟨trimSpace raw, by simp [processLine, hne], hsig.1, hsig.2⟩

/-- C9 (confirmed): while a response is active, a chunk containing `❌` is
printed and ends the active response (without being accumulated); a chunk
containing a newline and no `❌` is printed, accumulated, and also ends the
active response; and once the response is inactive, chunk events print
nothing — so an ordinary delta that happens to contain a newline stops
display of all subsequent fragments of that response. -/
theorem c9_content_sniffing_ends_response :
    ∀ (d : DisplayState) (st : ConversationState) (c : String),
      d.responseActive = true →
      (containsChar c errMark = true →
        handleDisplayStep d st (DispEvent.chunk c) =
          ⟨⟨d.currentResponse, false⟩, st, [], [c], false, false⟩) ∧
      (containsChar c errMark = false → containsChar c '\n' = true →
        handleDisplayStep d st (DispEvent.chunk c) =
          ⟨⟨d.currentResponse ++ c, false⟩, st, [], [c], false, false⟩) ∧
      (∀ d2 : DisplayState, d2.responseActive = false →
        (handleDisplayStep d2 st (DispEvent.chunk c)).out = []) := by
  intro d st c ha
  refine ⟨?_, ?_, ?_⟩
  · intro hm
    simp [handleDisplayStep, ha, hm]
  · intro hm hn
    simp [handleDisplayStep, ha, hm, hn]
  · intro d2 h2
    simp [handleDisplayStep, h2]

/-- C9 witness: concrete instances — an error-marker chunk and a
newline-bearing chunk each end the active response; a further chunk is then
not displayed. -/
theorem c9_content_sniffing_ends_response_witness :
    (⟨"ab", true⟩ : DisplayState).responseActive = true ∧
    containsChar "x❌y" errMark = true ∧
    handleDisplayStep ⟨"ab", true⟩ ConversationState.Responding
        (DispEvent.chunk "x❌y") =
      ⟨⟨"ab", false⟩, ConversationState.Responding, [], ["x❌y"], false,
        false⟩ ∧
    (handleDisplayStep ⟨"ab", false⟩ ConversationState.Responding
        (DispEvent.chunk "later")).out = [] :=
  ⟨rfl, by decide,
    (c9_content_sniffing_ends_response ⟨"ab", true⟩
      ConversationState.Responding "x❌y" rfl).1 (by decide),
    (c9_content_sniffing_ends_response ⟨"ab", true⟩
      ConversationState.Responding "later" rfl).2.2 ⟨"ab", false⟩ rfl⟩

/-- C10 (confirmed): forwarding a delta never blocks — when the outbound
buffer is full the delta is silently discarded and the streamer keeps going,
when there is room it is appended at the tail; and over any sequence of
offered deltas the delivered fragments form an order-preserving (possibly
lossy) subsequence of the offered ones. -/
theorem c10_forward_nonblocking_lossy :
    ∀ (cap : Nat) (buf : List String) (d : String) (ds : List String),
      (cap ≤ buf.length →
        StartStreamingStep cap ConversationState.Responding buf
            (InMessage.textDelta d) =
          ⟨ConversationState.Responding, buf, false⟩) ∧
      (buf.length < cap →
        StartStreamingStep cap ConversationState.Responding buf
            (InMessage.textDelta d) =
          ⟨ConversationState.Responding, buf ++ [d], false⟩) ∧
      (pushAll cap [] ds).Sublist ds := by
  intro cap buf d ds
  refine ⟨?_, ?_, ?_⟩
  · intro h
    have hnl : ¬ buf.length < cap := by omega
    simp [StartStreamingStep, trySend, hnl]
  · intro h
    simp [StartStreamingStep, trySend, h]
  · obtain ⟨e, he, hs⟩ := pushAll_append_sublist cap ds []
    simpa [he] using hs

/-- C10 witness: with capacity 1 and a full buffer the delta "b" is dropped;
and the deltas delivered from offering two to an empty capacity-1 channel
are a subsequence of those offered. -/
theorem c10_forward_nonblocking_lossy_witness :
    (1 ≤ (["a"] : List String).length ∧
      StartStreamingStep 1 ConversationState.Responding ["a"]
          (InMessage.textDelta "b") =
        ⟨ConversationState.Responding, ["a"], false⟩) ∧
    (pushAll 1 [] ["a", "b"]).Sublist ["a", "b"] :=
  ⟨⟨by decide,
      (c10_forward_nonblocking_lossy 1 ["a"] "b" ["a", "b"]).1 (by decide)⟩,
    (c10_forward_nonblocking_lossy 1 ["a"] "b" ["a", "b"]).2.2⟩

end GoGptCli
